import Mathlib

/-!
Shallow embedding of `src/overlords/core/queen_bunker.ts` (BunkerQueenOverlord)
from the Overmind repository: zone partitioning of bunker supply structures,
round-robin zone assignment to queens, the supply/withdraw task-manifest
builders with their greedy carry-capacity fill, the idle charging-spot
handler, and the per-tick dispatcher.

JavaScript objects used as resource maps (`queen.carry`, `queenCarry`,
structure stores) are embedded as insertion-ordered association lists
`List (ResourceType × Nat)`; `_.sum`, `_.keys`, `obj[k] || 0` and
`obj[k] += v` are embedded by the corresponding list operations.
Amounts are natural numbers.  A builder that logs a warning and returns
`null` is embedded as `Except String (List Task)` returning `.error msg`.
-/

namespace QueenBunker

/-- Resource kinds (e.g. "energy"); plain strings as in the game API. -/
abbrev ResourceType := String

/-- A room position. -/
structure Position where
  x : Int
  y : Int
deriving DecidableEq, Repr

/-- An insertion-ordered resource map, as a JS object `{resource: amount}`. -/
abbrev Store := List (ResourceType × Nat)

/-- `store[r] || 0`. -/
def Store.get (s : Store) (r : ResourceType) : Nat :=
  match s.lookup r with
  | some n => n
  | none => 0

/-- `_.sum(store)`: sum of all values. -/
def Store.total (s : Store) : Nat :=
  (s.map Prod.snd).sum

/-- `if (!obj[r]) obj[r] = 0; obj[r] += n`: add to an existing key in place,
or append a fresh key at the end (JS object insertion order). -/
def Store.add (s : Store) (r : ResourceType) (n : Nat) : Store :=
  match s with
  | [] => [(r, n)]
  | (r0, v) :: rest => if r0 == r then (r0, v + n) :: rest else (r0, v) :: Store.add rest r n

/-- A structure with a resource store (terminal / storage / container). -/
structure StoreStructure where
  id : Nat
  pos : Position
  store : Store
deriving DecidableEq, Repr

/-- A game structure with a role tag, as seen by `isSupplyStructure` and
`computeQuadrant`. -/
structure GameStructure where
  id : Nat
  structureType : String
  pos : Position
deriving DecidableEq, Repr

/-- `isSupplyStructure` (queen_bunker.ts lines 33-38). -/
def isSupplyStructure (s : GameStructure) : Bool :=
  s.structureType == "extension"
    || s.structureType == "lab"
    || s.structureType == "tower"
    || s.structureType == "spawn"

/-- A bunker-layout coordinate, resolved to a world position by the colony. -/
structure Coord where
  cx : Int
  cy : Int
deriving DecidableEq, Repr

/-- The colony data `computeQuadrant` reads: the coordinate resolver
`getPosFromBunkerCoord` (external layout collaborator, embedded as an
abstract resolver) and the room's `pos.lookFor(LOOK_STRUCTURES)`. -/
structure Colony where
  getPos : Coord → Position
  lookStructures : Position → List GameStructure

/-- `computeQuadrant` (queen_bunker.ts lines 40-50): for each coordinate of
the quadrant, in fill order, take the first supply structure found at the
resolved position, skipping positions with none. -/
def computeQuadrant (colony : Colony) (quadrant : List Coord) : List GameStructure :=
  match quadrant with
  | [] => []
  | c :: rest =>
    match (colony.lookStructures (colony.getPos c)).find? (fun s => isSupplyStructure s) with
    | some s => s :: computeQuadrant colony rest
    | none => computeQuadrant colony rest

/-- A transport request (supply or withdraw), keyed by target structure id. -/
structure Request where
  target : Nat
  resourceType : ResourceType
  amount : Nat
deriving DecidableEq, Repr

/-- A task (operation) in a manifest chain. -/
inductive Task where
  | transferAll (target : Nat)
  | transfer (target : Nat) (resourceType : ResourceType) (amount : Nat)
  | withdraw (target : Nat) (resourceType : ResourceType) (amount : Nat)
deriving DecidableEq, Repr

/-- A queen creep as read by the overlord. -/
structure QueenInfo where
  name : String
  pos : Position
  carry : Store
  carryCapacity : Nat
  spawning : Bool
  isIdle : Bool
deriving DecidableEq, Repr

/-- The overlord's cycle-local state: fallback stores, the distance oracle
(`Pathing.distance`, external), the transport-request index
(`supplyByID` / `withdrawByID`, missing key = no requests), the
queen-name → assigned-structures map, and the resolved charging spots. -/
structure BunkerState where
  terminal : Option StoreStructure
  storage : Option StoreStructure
  batteries : List StoreStructure
  distance : Position → Position → Nat
  supplyByID : Nat → List Request
  withdrawByID : Nat → List Request
  assignments : List (String × List GameStructure)
  chargeSpots : List Position

/-- `this.storeStructures = _.compact([terminal, storage, ...batteries])`
(queen_bunker.ts line 68). -/
def storeStructures (st : BunkerState) : List StoreStructure :=
  st.terminal.toList ++ st.storage.toList ++ st.batteries

/-- `this.colony.terminal || this.colony.storage || this.batteries[0]`
(queen_bunker.ts lines 110 and 168). -/
def transferTarget (st : BunkerState) : Option StoreStructure :=
  match st.terminal with
  | some t => some t
  | none =>
    match st.storage with
    | some s => some s
    | none => st.batteries.head?

/-- Modelled from the spec: `mergeSum` (utilities/utils, outside src/) sums
the resource stores of all store structures pointwise into one
availability map ("sum resource stores across all designated reserve/store
structures into a single availability map"). -/
def allStore (st : BunkerState) (r : ResourceType) : Nat :=
  ((storeStructures st).map (fun s => s.store.get r)).sum

/-- Modelled from the spec: `minBy` (utilities/utils, outside src/) picks
the element minimizing the metric ("pick the one minimizing travel
distance"); the first minimizer is kept (the scan only moves on a strict
improvement), `none` on an empty list. -/
def minBy {α : Type} (l : List α) (f : α → Nat) : Option α :=
  match l with
  | [] => none
  | x :: rest =>
    match minBy rest f with
    | none => some x
    | some b => if f b < f x then some b else some x

/-- `this.assignments[queen.name]`; a missing key behaves as the empty
list (lodash `_.map`/`_.any` on `undefined`). -/
def assignedTo (st : BunkerState) (name : String) : List GameStructure :=
  match st.assignments.lookup name with
  | some l => l
  | none => []

/-- `_.compact(_.flatten(_.map(assignment, struc => index[struc.id])))`:
concatenated request lists of the assigned structures (a missing index key
contributes nothing). -/
def requestsFor (index : Nat → List Request) (assignment : List GameStructure) : List Request :=
  (assignment.map (fun s => index s.id)).flatten

/-- The greedy fill loop of `buildSupplyTaskManifest` (queen_bunker.ts
lines 125-140): stop when the simulated carry is full, cap each request by
remaining capacity and by the fixed availability snapshot, skip requests
whose computed amount is zero, otherwise accumulate into the simulated
carry and append a delivery task. -/
def greedyFillSupply (cap : Nat) (avail : ResourceType → Nat) :
    List Request → Store → List Task → Store × List Task
  | [], carry, tasks => (carry, tasks)
  | req :: rest, carry, tasks =>
    let remainingAmount := cap - carry.total
    if remainingAmount = 0 then (carry, tasks)
    else
      let amount := min (min req.amount remainingAmount) (avail req.resourceType)
      if amount = 0 then greedyFillSupply cap avail rest carry tasks
      else
        greedyFillSupply cap avail rest (carry.add req.resourceType amount)
          (tasks ++ [Task.transfer req.target req.resourceType amount])

/-- The greedy fill loop of `buildWithdrawTaskManifest` (queen_bunker.ts
lines 182-196): like the supply fill but without the availability bound,
appending withdraw tasks from the request targets. -/
def greedyFillWithdraw (cap : Nat) :
    List Request → Store → List Task → Store × List Task
  | [], carry, tasks => (carry, tasks)
  | req :: rest, carry, tasks =>
    let remainingAmount := cap - carry.total
    if remainingAmount = 0 then (carry, tasks)
    else
      let amount := min req.amount remainingAmount
      if amount = 0 then greedyFillWithdraw cap rest carry tasks
      else
        greedyFillWithdraw cap rest (carry.add req.resourceType amount)
          (tasks ++ [Task.withdraw req.target req.resourceType amount])

/-- Warning logged at a failed carry flush (`No transfer targets for ...`). -/
def noTransferTargetsMsg : String := "No transfer targets"

/-- Warning logged at a failed source selection (`No withdraw target for ...`). -/
def noWithdrawTargetMsg : String := "No withdraw target"

/-- Step 1 of `buildSupplyTaskManifest` (queen_bunker.ts lines 107-118):
if the queen carries anything, flush it all to the fallback store and
continue from that store's position; fail if there is no fallback store. -/
def supplyFlush (st : BunkerState) (queen : QueenInfo) :
    Except String (List Task × Position) :=
  if queen.carry.total > 0 then
    match transferTarget st with
    | some t => .ok ([Task.transferAll t.id], t.pos)
    | none => .error noTransferTargetsMsg
  else .ok ([], queen.pos)

/-- The pending delivery requests for the queen's assigned structures
(queen_bunker.ts lines 122-123). -/
def supplyRequestsOf (st : BunkerState) (queen : QueenInfo) : List Request :=
  requestsFor st.supplyByID (assignedTo st queen.name)

/-- The simulated carry after the supply greedy fill (queen_bunker.ts
lines 120-140), starting from the empty carry `{}`. -/
def supplySimCarry (st : BunkerState) (queen : QueenInfo) : Store :=
  (greedyFillSupply queen.carryCapacity (allStore st) (supplyRequestsOf st queen) [] []).1

/-- The delivery tasks produced by the supply greedy fill. -/
def supplySimTasks (st : BunkerState) (queen : QueenInfo) : List Task :=
  (greedyFillSupply queen.carryCapacity (allStore st) (supplyRequestsOf st queen) [] []).2

/-- The all-or-nothing feasibility test of queen_bunker.ts lines 145-146:
a store structure qualifies only if, for every needed resource (every key
of the simulated carry), its stock covers the simulated amount. -/
def qualifies (queenCarry : Store) (s : StoreStructure) : Bool :=
  (queenCarry.map Prod.fst).all (fun r => decide (queenCarry.get r ≤ s.store.get r))

/-- Step 4 of `buildSupplyTaskManifest` (queen_bunker.ts lines 144-152):
filter the store structures by the all-or-nothing rule; with more than one
qualifying target take the distance minimizer from the post-flush
position, otherwise take the first (only) one if any. -/
def selectWithdrawTarget (st : BunkerState) (queenPos : Position) (queenCarry : Store) :
    Option StoreStructure :=
  let targets := (storeStructures st).filter (fun s => qualifies queenCarry s)
  if targets.length > 1 then minBy targets (fun t => st.distance queenPos t.pos)
  else targets.head?

/-- `buildSupplyTaskManifest` (queen_bunker.ts lines 105-163).
`Tasks.chain` is modelled from the spec: a manifest is the ordered
operation sequence itself (`[flush?] + withdraws + deliveries`). -/
def buildSupplyTaskManifest (st : BunkerState) (queen : QueenInfo) :
    Except String (List Task) :=
  match supplyFlush st queen with
  | .error e => .error e
  | .ok (tasks, queenPos) =>
    let queenCarry := supplySimCarry st queen
    let neededResources := queenCarry.map Prod.fst
    match selectWithdrawTarget st queenPos queenCarry with
    | none => .error noWithdrawTargetMsg
    | some wt =>
      let withdrawTasks := neededResources.map
        (fun r => Task.withdraw wt.id r (queenCarry.get r))
      .ok (tasks ++ withdrawTasks ++ supplySimTasks st queen)

/-- Step 1 of `buildWithdrawTaskManifest` (queen_bunker.ts lines 169-177). -/
def withdrawFlush (st : BunkerState) (queen : QueenInfo) :
    Except String (List Task) :=
  if queen.carry.total > 0 then
    match transferTarget st with
    | some t => .ok [Task.transferAll t.id]
    | none => .error noTransferTargetsMsg
  else .ok []

/-- The pending removal requests for the queen's assigned structures
(queen_bunker.ts lines 180-181). -/
def withdrawRequestsOf (st : BunkerState) (queen : QueenInfo) : List Request :=
  requestsFor st.withdrawByID (assignedTo st queen.name)

/-- The withdraw tasks produced by the withdraw greedy fill
(queen_bunker.ts lines 179-196), starting from the carry `{energy: 0}`. -/
def withdrawSimTasks (st : BunkerState) (queen : QueenInfo) : List Task :=
  (greedyFillWithdraw queen.carryCapacity (withdrawRequestsOf st queen) [("energy", 0)] []).2

/-- `buildWithdrawTaskManifest` (queen_bunker.ts lines 166-206): optional
initial flush, greedy withdraw fill, and an unconditional final flush into
the fallback store (`transferTarget` is read once, line 168). -/
def buildWithdrawTaskManifest (st : BunkerState) (queen : QueenInfo) :
    Except String (List Task) :=
  match withdrawFlush st queen with
  | .error e => .error e
  | .ok tasks =>
    match transferTarget st with
    | some t => .ok (tasks ++ withdrawSimTasks st queen ++ [Task.transferAll t.id])
    | none => .error noTransferTargetsMsg

/-- `_.sortBy(this.zerg(role), creep => creep.name)` (queen_bunker.ts
line 66): stable sort by name (insertion sort). -/
def sortByName (qs : List QueenInfo) : List QueenInfo :=
  List.insertionSort (fun a b => a.name ≤ b.name) qs

/-- The four quadrant structure lists, as `this.quadrants`. -/
structure Quadrants where
  lowerRight : List GameStructure
  upperLeft : List GameStructure
  lowerLeft : List GameStructure
  upperRight : List GameStructure
deriving DecidableEq, Repr

/-- `quadrantAssignmentOrder` (queen_bunker.ts lines 83-86). -/
def quadrantAssignmentOrder (q : Quadrants) : List (List GameStructure) :=
  [q.lowerRight, q.upperLeft, q.lowerLeft, q.upperRight]

/-- `this.assignments[name] = this.assignments[name].concat(quadrant)`:
extend the entry (entries) for `name`. -/
def assocConcat : List (String × List GameStructure) → String → List GameStructure →
    List (String × List GameStructure)
  | [], _, _ => []
  | (k, v) :: rest, name, zone =>
    (if k = name then (k, v ++ zone) else (k, v)) :: assocConcat rest name zone

/-- The assignment loop of the constructor (queen_bunker.ts lines 87-92):
zone `i` goes to `activeQueens[i % activeQueens.length]`. -/
def assignLoop (activeNames : List String) :
    Nat → List (List GameStructure) → List (String × List GameStructure) →
    List (String × List GameStructure)
  | _, [], asgn => asgn
  | i, zone :: rest, asgn =>
    assignLoop activeNames (i + 1) rest
      (assocConcat asgn (activeNames.getD (i % activeNames.length) "") zone)

/-- The names of the active (not spawning) queens, in sorted order
(`_.filter(this.queens, queen => !queen.spawning)`, queen_bunker.ts
line 81). -/
def activeNamesOf (queens : List QueenInfo) : List String :=
  ((sortByName queens).filter (fun qu => !qu.spawning)).map QueenInfo.name

/-- The constructor's assignment computation (queen_bunker.ts lines 79-93):
queens sorted by name, every queen starts with an empty assignment, and if
at least one queen is active (not spawning) the four zones are dealt
round-robin over the active queens in canonical order. -/
def buildAssignments (queens : List QueenInfo) (q : Quadrants) :
    List (String × List GameStructure) :=
  let init := (sortByName queens).map (fun qu => (qu.name, ([] : List GameStructure)))
  if (activeNamesOf queens).length ≥ 1 then
    assignLoop (activeNamesOf queens) 0 (quadrantAssignmentOrder q) init
  else init

/-- Chebyshev range between two positions, as the game's `getRangeTo`. -/
def chebyshev (a b : Position) : Nat :=
  max (a.x - b.x).natAbs (a.y - b.y).natAbs

/-- Modelled from the spec: the game API `pos.findClosestByRange(spots)`
(external collaborator) returns a nearest spot by range — "route it toward
the nearest designated standby/charging position" — or none when there is
no spot. -/
def findClosestByRange (from_ : Position) (spots : List Position) : Option Position :=
  minBy spots (fun p => chebyshev from_ p)

/-- `(_.first(this.assignments[queen.name]) || queen).pos`
(queen_bunker.ts line 210): the position the search starts from — the
first assigned structure's, else the queen's own. -/
def chargeAnchor (st : BunkerState) (queen : QueenInfo) : Position :=
  match (assignedTo st queen.name).head? with
  | some s => s.pos
  | none => queen.pos

/-- `getChargingSpot` (queen_bunker.ts lines 208-217): nearest charging
spot from the anchor position; falls back to the queen's own position
with a warning when none resolves. -/
def getChargingSpot (st : BunkerState) (queen : QueenInfo) : Position :=
  match findClosestByRange (chargeAnchor st queen) st.chargeSpots with
  | some p => p
  | none => queen.pos

/-- What `handleQueen` leaves the queen doing this tick: a freshly built
task manifest, or the idle movement directive toward a position
(`idleActions`, queen_bunker.ts lines 219-244, issues only
`goTo(chargingSpot)`). -/
inductive Outcome where
  | newManifest (tasks : List Task)
  | idleMove (pos : Position)
  | keepCurrent
deriving DecidableEq, Repr

/-- `_.any(assignment, struc => withdrawByID[struc.id])`: some assigned
structure has a pending removal request. -/
def hasWithdrawRequest (st : BunkerState) (queen : QueenInfo) : Bool :=
  (assignedTo st queen.name).any (fun s => !(st.withdrawByID s.id).isEmpty)

/-- `_.any(assignment, struc => supplyByID[struc.id])`: some assigned
structure has a pending delivery request. -/
def hasSupplyRequest (st : BunkerState) (queen : QueenInfo) : Bool :=
  (assignedTo st queen.name).any (fun s => !(st.supplyByID s.id).isEmpty)

/-- `handleQueen` (queen_bunker.ts lines 246-259): withdraw manifest if
any assigned structure needs removal, else supply manifest if any needs
delivery; if the queen is still idle afterwards (no requests, or the
build returned null) run `idleActions`. -/
def handleQueen (st : BunkerState) (queen : QueenInfo) : Outcome :=
  if hasWithdrawRequest st queen then
    match buildWithdrawTaskManifest st queen with
    | .ok tasks => .newManifest tasks
    | .error _ => .idleMove (getChargingSpot st queen)
  else if hasSupplyRequest st queen then
    match buildSupplyTaskManifest st queen with
    | .ok tasks => .newManifest tasks
    | .error _ => .idleMove (getChargingSpot st queen)
  else .idleMove (getChargingSpot st queen)

/-- One queen's turn of `run` (queen_bunker.ts lines 261-268): only an
idle queen gets a new manifest; a busy queen keeps its current task.
Every queen then executes one step of its task (`queen.run()`, external). -/
def dispatchQueen (st : BunkerState) (queen : QueenInfo) : Outcome :=
  if queen.isIdle then handleQueen st queen else .keepCurrent

/-- `run` (queen_bunker.ts lines 261-268) over the name-sorted queen list
`this.queens`: each queen, in order, is dispatched exactly once. -/
def runAll (st : BunkerState) (queens : List QueenInfo) : List (String × Outcome) :=
  (sortByName queens).map (fun q => (q.name, dispatchQueen st q))

/-- Is this task a withdraw operation? -/
def Task.isWithdrawOp : Task → Bool
  | .withdraw _ _ _ => true
  | _ => false

/-- Is this task a single-resource delivery operation? -/
def Task.isTransferOp : Task → Bool
  | .transfer _ _ _ => true
  | _ => false

/-- Is this task a flush (transfer-everything) operation? -/
def Task.isTransferAllOp : Task → Bool
  | .transferAll _ => true
  | _ => false

/-- The four quadrant coordinate lists of the bunker layout
(`quadrantFillOrder`, external layout data). -/
structure QuadrantCoords where
  lowerRight : List Coord
  upperLeft : List Coord
  lowerLeft : List Coord
  upperRight : List Coord
deriving DecidableEq, Repr

/-- The four coordinate lists in canonical order. -/
def quadrantCoordList (qc : QuadrantCoords) : List (List Coord) :=
  [qc.lowerRight, qc.upperLeft, qc.lowerLeft, qc.upperRight]

/-- The simulated carry after the withdraw greedy fill (queen_bunker.ts
lines 179-196). -/
def withdrawSimCarry (st : BunkerState) (queen : QueenInfo) : Store :=
  (greedyFillWithdraw queen.carryCapacity (withdrawRequestsOf st queen) [("energy", 0)] []).1

instance : IsTotal QueenInfo (fun a b => a.name ≤ b.name) :=
  ⟨fun a b => le_total a.name b.name⟩

instance : IsTrans QueenInfo (fun a b => a.name ≤ b.name) :=
  ⟨fun _ _ _ => le_trans⟩

/-! Concrete sample inputs used to evaluate the theorems on closed data. -/

/-- An idle queen with an empty carry and capacity 50. -/
def witQueen : QueenInfo := ⟨"q1", ⟨0, 0⟩, [], 50, false, true⟩

/-- An idle queen carrying 10 energy. -/
def witQueenCarrying : QueenInfo := ⟨"q1", ⟨0, 0⟩, [("energy", 10)], 50, false, true⟩

/-- A distant reserve container holding plenty of energy. -/
def witBatFar : StoreStructure := ⟨21, ⟨9, 9⟩, [("energy", 100)]⟩

/-- A nearby reserve container holding plenty of energy. -/
def witBatNear : StoreStructure := ⟨22, ⟨1, 1⟩, [("energy", 100)]⟩

/-- A sample simulated carry needing 10 energy. -/
def witCarry : Store := [("energy", 10)]

/-- A state with two qualifying reserve containers at different ranges. -/
def witStTwo : BunkerState :=
  { terminal := none
    storage := none
    batteries := [witBatFar, witBatNear]
    distance := chebyshev
    supplyByID := fun id => if id == 1 then [⟨1, "energy", 30⟩] else []
    withdrawByID := fun _ => []
    assignments := [("q1", [⟨1, "lab", ⟨2, 2⟩⟩])]
    chargeSpots := [⟨3, 3⟩] }

/-- A state whose energy is fragmented over two small containers, so no
single source covers a 10-energy need. -/
def witStFrag : BunkerState :=
  { terminal := none
    storage := none
    batteries := [⟨31, ⟨1, 1⟩, [("energy", 5)]⟩, ⟨32, ⟨2, 1⟩, [("energy", 5)]⟩]
    distance := chebyshev
    supplyByID := fun id => if id == 1 then [⟨1, "energy", 30⟩] else []
    withdrawByID := fun _ => []
    assignments := [("q1", [⟨1, "lab", ⟨2, 2⟩⟩])]
    chargeSpots := [⟨3, 3⟩] }

/-- A state with a storage full of energy and one pending 80-energy
delivery request. -/
def witStX : BunkerState :=
  { terminal := none
    storage := some ⟨100, ⟨5, 5⟩, [("energy", 200)]⟩
    batteries := []
    distance := chebyshev
    supplyByID := fun id => if id == 1 then [⟨1, "energy", 80⟩] else []
    withdrawByID := fun _ => []
    assignments := [("q1", [⟨1, "extension", ⟨2, 2⟩⟩])]
    chargeSpots := [⟨3, 3⟩] }

/-- `witStX` with a pending removal request instead of the delivery one. -/
def witStW : BunkerState :=
  { witStX with
    supplyByID := fun _ => []
    withdrawByID := fun id => if id == 1 then [⟨1, "energy", 30⟩] else [] }

/-- A state with no store structure at all. -/
def witStEmpty : BunkerState :=
  { witStX with storage := none, batteries := [] }

/-- `witStX` with no pending requests at all. -/
def witStQuiet : BunkerState :=
  { witStX with supplyByID := fun _ => [] }

/-- `witStQuiet` with no charging spots. -/
def witStNoSpots : BunkerState :=
  { witStQuiet with chargeSpots := [] }

/-- A two-tile colony: a spawn at (1,1) and a tower at (2,2). -/
def witColony : Colony :=
  { getPos := fun c => ⟨c.cx, c.cy⟩
    lookStructures := fun p =>
      if p = ⟨1, 1⟩ then [⟨1, "spawn", ⟨1, 1⟩⟩]
      else if p = ⟨2, 2⟩ then [⟨2, "tower", ⟨2, 2⟩⟩]
      else [] }

/-- Quadrant coordinates for `witColony`. -/
def witQC : QuadrantCoords := ⟨[⟨1, 1⟩], [⟨2, 2⟩], [⟨3, 3⟩], []⟩

/-- Two active queens, given out of name order. -/
def witQueens : List QueenInfo :=
  [⟨"b", ⟨0, 0⟩, [], 50, false, true⟩, ⟨"a", ⟨0, 0⟩, [], 50, false, true⟩]

/-- Four one-structure quadrants. -/
def witQuadrants : Quadrants :=
  ⟨[⟨1, "spawn", ⟨1, 1⟩⟩], [⟨2, "tower", ⟨2, 2⟩⟩],
   [⟨3, "lab", ⟨3, 3⟩⟩], [⟨4, "extension", ⟨4, 4⟩⟩]⟩

theorem Store.total_cons (r : ResourceType) (v : Nat) (s : Store) :
    Store.total ((r, v) :: s) = v + Store.total s := by
  simp [Store.total]

theorem Store.add_total (s : Store) (r : ResourceType) (n : Nat) :
    (s.add r n).total = s.total + n := by
  induction s with
  | nil => simp [Store.add, Store.total]
  | cons p rest ih =>
    obtain ⟨r0, v⟩ := p
    simp only [Store.add]
    split
    · simp only [Store.total_cons]; omega
    · simp only [Store.total_cons, ih]; omega

theorem Store.add_ne_nil (s : Store) (r : ResourceType) (n : Nat) :
    s.add r n ≠ [] := by
  cases s with
  | nil => simp [Store.add]
  | cons p rest =>
    obtain ⟨r0, v⟩ := p
    simp only [Store.add]
    split <;> simp

theorem greedyFillSupply_carry_le (cap : Nat) (avail : ResourceType → Nat) :
    ∀ (reqs : List Request) (carry : Store) (tasks : List Task),
      carry.total ≤ cap →
      ((greedyFillSupply cap avail reqs carry tasks).1).total ≤ cap := by
  intro reqs
  induction reqs with
  | nil => intro carry tasks h; simpa [greedyFillSupply] using h
  | cons req rest ih =>
    intro carry tasks h
    simp only [greedyFillSupply]
    split
    · exact h
    · split
      · exact ih carry tasks h
      · apply ih
        rw [Store.add_total]
        rename_i hrem _
        have hmin : min (min req.amount (cap - carry.total)) (avail req.resourceType)
            ≤ cap - carry.total := le_trans (min_le_left _ _) (min_le_right _ _)
        omega

theorem greedyFillWithdraw_carry_le (cap : Nat) :
    ∀ (reqs : List Request) (carry : Store) (tasks : List Task),
      carry.total ≤ cap →
      ((greedyFillWithdraw cap reqs carry tasks).1).total ≤ cap := by
  intro reqs
  induction reqs with
  | nil => intro carry tasks h; simpa [greedyFillWithdraw] using h
  | cons req rest ih =>
    intro carry tasks h
    simp only [greedyFillWithdraw]
    split
    · exact h
    · split
      · exact ih carry tasks h
      · apply ih
        rw [Store.add_total]
        have hmin : min req.amount (cap - carry.total) ≤ cap - carry.total :=
          min_le_right _ _
        omega

theorem greedyFillSupply_tasks_transfer (cap : Nat) (avail : ResourceType → Nat) :
    ∀ (reqs : List Request) (carry : Store) (tasks : List Task),
      (∀ op ∈ tasks, op.isTransferOp = true) →
      ∀ op ∈ (greedyFillSupply cap avail reqs carry tasks).2, op.isTransferOp = true := by
  intro reqs
  induction reqs with
  | nil => intro carry tasks h; simpa [greedyFillSupply] using h
  | cons req rest ih =>
    intro carry tasks h
    simp only [greedyFillSupply]
    split
    · exact h
    · split
      · exact ih carry tasks h
      · apply ih
        intro op hop
        rcases List.mem_append.mp hop with hop | hop
        · exact h op hop
        · simp only [List.mem_singleton] at hop
          subst hop
          rfl

theorem greedyFillWithdraw_tasks_withdraw (cap : Nat) :
    ∀ (reqs : List Request) (carry : Store) (tasks : List Task),
      (∀ op ∈ tasks, op.isWithdrawOp = true) →
      ∀ op ∈ (greedyFillWithdraw cap reqs carry tasks).2, op.isWithdrawOp = true := by
  intro reqs
  induction reqs with
  | nil => intro carry tasks h; simpa [greedyFillWithdraw] using h
  | cons req rest ih =>
    intro carry tasks h
    simp only [greedyFillWithdraw]
    split
    · exact h
    · split
      · exact ih carry tasks h
      · apply ih
        intro op hop
        rcases List.mem_append.mp hop with hop | hop
        · exact h op hop
        · simp only [List.mem_singleton] at hop
          subst hop
          rfl

theorem greedyFillSupply_carry_ne_nil (cap : Nat) (avail : ResourceType → Nat) :
    ∀ (reqs : List Request) (carry : Store) (tasks : List Task),
      carry ≠ [] → (greedyFillSupply cap avail reqs carry tasks).1 ≠ [] := by
  intro reqs
  induction reqs with
  | nil => intro carry tasks h; simpa [greedyFillSupply] using h
  | cons req rest ih =>
    intro carry tasks h
    simp only [greedyFillSupply]
    split
    · exact h
    · split
      · exact ih carry tasks h
      · exact ih _ _ (Store.add_ne_nil carry req.resourceType _)

theorem greedyFillSupply_snd_of_carry_nil (cap : Nat) (avail : ResourceType → Nat) :
    ∀ (reqs : List Request) (carry : Store) (tasks : List Task),
      (greedyFillSupply cap avail reqs carry tasks).1 = [] →
      (greedyFillSupply cap avail reqs carry tasks).2 = tasks := by
  intro reqs
  induction reqs with
  | nil => intro carry tasks _; rfl
  | cons req rest ih =>
    intro carry tasks h
    by_cases h1 : cap - Store.total carry = 0
    · simp [greedyFillSupply, h1]
    · by_cases h2 :
        min (min req.amount (cap - Store.total carry)) (avail req.resourceType) = 0
      · simp only [greedyFillSupply, if_neg h1, if_pos h2] at h ⊢
        exact ih carry tasks h
      · exfalso
        simp only [greedyFillSupply, if_neg h1, if_neg h2] at h
        exact greedyFillSupply_carry_ne_nil cap avail rest _ _
          (Store.add_ne_nil carry req.resourceType _) h

theorem minBy_eq_none {α : Type} (l : List α) (f : α → Nat) :
    minBy l f = none ↔ l = [] := by
  cases l with
  | nil => simp [minBy]
  | cons x rest =>
    simp only [minBy]
    cases hm : minBy rest f with
    | none => simp [hm]
    | some b => simp only [hm]; split <;> simp

theorem minBy_mem {α : Type} (f : α → Nat) :
    ∀ (l : List α) (x : α), minBy l f = some x → x ∈ l := by
  intro l
  induction l with
  | nil => intro x h; simp [minBy] at h
  | cons a rest ih =>
    intro x h
    simp only [minBy] at h
    cases hm : minBy rest f with
    | none =>
      simp only [hm] at h
      injection h with h
      subst h
      exact List.mem_cons_self a rest
    | some b =>
      simp only [hm] at h
      split at h <;> injection h with h <;> subst h
      · exact List.mem_cons_of_mem a (ih b hm)
      · exact List.mem_cons_self a rest

theorem minBy_min {α : Type} (f : α → Nat) :
    ∀ (l : List α) (x : α), minBy l f = some x → ∀ y ∈ l, f x ≤ f y := by
  intro l
  induction l with
  | nil => intro x h; simp [minBy] at h
  | cons a rest ih =>
    intro x h y hy
    simp only [minBy] at h
    cases hm : minBy rest f with
    | none =>
      simp only [hm] at h
      injection h with h
      subst h
      have hrest : rest = [] := (minBy_eq_none rest f).mp hm
      subst hrest
      rcases List.mem_cons.mp hy with hy | hy
      · subst hy; exact le_refl _
      · simp at hy
    | some b =>
      simp only [hm] at h
      split at h <;> injection h with h <;> subst h
      · rename_i hlt
        rcases List.mem_cons.mp hy with hy | hy
        · subst hy; omega
        · exact ih b hm y hy
      · rename_i hnlt
        rcases List.mem_cons.mp hy with hy | hy
        · subst hy; exact le_refl _
        · have := ih b hm y hy; omega

theorem selectWithdrawTarget_some (st : BunkerState) (queenPos : Position)
    (queenCarry : Store) (wt : StoreStructure)
    (h : selectWithdrawTarget st queenPos queenCarry = some wt) :
    wt ∈ (storeStructures st).filter (fun s => qualifies queenCarry s) ∧
    ∀ s ∈ (storeStructures st).filter (fun s => qualifies queenCarry s),
      st.distance queenPos wt.pos ≤ st.distance queenPos s.pos := by
  simp only [selectWithdrawTarget] at h
  split at h
  · exact ⟨minBy_mem _ _ _ h, minBy_min _ _ _ h⟩
  · rename_i hlen
    cases htg : (storeStructures st).filter (fun s => qualifies queenCarry s) with
    | nil => rw [htg] at h; simp at h
    | cons a rest =>
      rw [htg] at h
      simp at h
      subst h
      rw [htg] at hlen
      simp at hlen
      subst hlen
      refine ⟨List.mem_singleton_self _, ?_⟩
      intro s hs
      simp at hs
      subst hs
      exact le_refl _

theorem supplyFlush_ok_shape (st : BunkerState) (queen : QueenInfo)
    (ftasks : List Task) (fpos : Position)
    (h : supplyFlush st queen = .ok (ftasks, fpos)) :
    (ftasks = [] ∧ fpos = queen.pos) ∨
    (∃ t, transferTarget st = some t ∧ ftasks = [Task.transferAll t.id] ∧ fpos = t.pos) := by
  simp only [supplyFlush] at h
  split at h
  · cases htt : transferTarget st with
    | none => rw [htt] at h; simp at h
    | some t =>
      rw [htt] at h
      simp only [Except.ok.injEq, Prod.mk.injEq] at h
      right
      exact ⟨t, rfl, h.1.symm, h.2.symm⟩
  · simp only [Except.ok.injEq, Prod.mk.injEq] at h
    left
    exact ⟨h.1.symm, h.2.symm⟩

theorem withdrawFlush_ok_shape (st : BunkerState) (queen : QueenInfo)
    (ftasks : List Task) (h : withdrawFlush st queen = .ok ftasks) :
    ftasks = [] ∨ ∃ t, transferTarget st = some t ∧ ftasks = [Task.transferAll t.id] := by
  simp only [withdrawFlush] at h
  split at h
  · cases htt : transferTarget st with
    | none => rw [htt] at h; simp at h
    | some t =>
      rw [htt] at h
      simp only [Except.ok.injEq] at h
      right
      exact ⟨t, rfl, h.symm⟩
  · simp only [Except.ok.injEq] at h
    left
    exact h.symm

theorem lookup_assocConcat (nm : String) (z : List GameStructure) (w : String) :
    ∀ (a : List (String × List GameStructure)),
      (assocConcat a nm z).lookup w =
        if w = nm then (a.lookup w).map (fun l => l ++ z) else a.lookup w := by
  intro a
  induction a with
  | nil => simp [assocConcat, List.lookup]
  | cons p rest ih =>
    obtain ⟨k, v⟩ := p
    simp only [assocConcat]
    by_cases hk : k = nm
    · rw [if_pos hk]
      by_cases hw : w = k
      · have hb : (w == k) = true := by simp [hw]
        have hw2 : w = nm := hw.trans hk
        rw [if_pos hw2]
        simp [List.lookup, hb]
      · have hb : (w == k) = false := by simp [hw]
        have hw3 : ¬ w = nm := fun h => hw (h.trans hk.symm)
        simp [List.lookup, hb, hw3, ih]
    · rw [if_neg hk]
      by_cases hw : w = k
      · have hb : (w == k) = true := by simp [hw]
        have hw3 : ¬ w = nm := fun h => hk (hw.symm.trans h)
        simp [List.lookup, hb, hw3]
      · have hb : (w == k) = false := by simp [hw]
        simp [List.lookup, hb, ih]

theorem lookup_initAssignments (w : String) :
    ∀ (l : List QueenInfo),
      (l.map (fun qu => (qu.name, ([] : List GameStructure)))).lookup w =
        if w ∈ l.map QueenInfo.name then some [] else none := by
  intro l
  induction l with
  | nil => simp [List.lookup]
  | cons qu rest ih =>
    by_cases hw : w = qu.name
    · simp [List.lookup, hw]
    · have hb : (w == qu.name) = false := by simp [hw]
      simp [List.lookup, hb, ih, hw]

theorem sortByName_perm (qs : List QueenInfo) : List.Perm (sortByName qs) qs :=
  List.perm_insertionSort _ qs

theorem mem_names_sortByName (qs : List QueenInfo) (w : String) :
    w ∈ (sortByName qs).map QueenInfo.name ↔ w ∈ qs.map QueenInfo.name :=
  ((sortByName_perm qs).map QueenInfo.name).mem_iff

theorem activeNamesOf_nodup (qs : List QueenInfo)
    (h : (qs.map QueenInfo.name).Nodup) : (activeNamesOf qs).Nodup := by
  have hperm : List.Perm ((sortByName qs).map QueenInfo.name) (qs.map QueenInfo.name) :=
    (sortByName_perm qs).map _
  have hsorted : ((sortByName qs).map QueenInfo.name).Nodup := hperm.nodup_iff.mpr h
  have hsub : (((sortByName qs).filter (fun qu => !qu.spawning)).map QueenInfo.name).Sublist
      ((sortByName qs).map QueenInfo.name) :=
    (List.filter_sublist _).map _
  exact hsorted.sublist hsub

theorem mem_activeNamesOf (qs : List QueenInfo) (w : String)
    (h : w ∈ activeNamesOf qs) : w ∈ (sortByName qs).map QueenInfo.name := by
  simp only [activeNamesOf, List.mem_map] at h
  obtain ⟨qv, hqv, hname⟩ := h
  rw [List.mem_filter] at hqv
  exact List.mem_map.mpr ⟨qv, hqv.1, hname⟩

theorem spawning_not_active (qs : List QueenInfo) (qu : QueenInfo)
    (hnd : (qs.map QueenInfo.name).Nodup) (hq : qu ∈ qs) (hs : qu.spawning = true) :
    qu.name ∉ activeNamesOf qs := by
  intro hmem
  simp only [activeNamesOf, List.mem_map] at hmem
  obtain ⟨qv, hqv, hname⟩ := hmem
  rw [List.mem_filter] at hqv
  obtain ⟨hqv_mem, hqv_act⟩ := hqv
  have hqv_mem2 : qv ∈ qs := (sortByName_perm qs).mem_iff.mp hqv_mem
  have heq : qu = qv := List.inj_on_of_nodup_map hnd hq hqv_mem2 hname.symm
  rw [heq] at hs
  simp [hs] at hqv_act

theorem getD_mem_of_lt (l : List String) (i : Nat) (h : i < l.length) :
    l.getD i "" ∈ l := by
  rw [List.getD_eq_getElem l "" h]
  exact List.getElem_mem h

theorem computeQuadrant_subset (colony : Colony) :
    ∀ (quad : List Coord) (s : GameStructure), s ∈ computeQuadrant colony quad →
      ∃ c ∈ quad, (colony.lookStructures (colony.getPos c)).find?
        (fun s2 => isSupplyStructure s2) = some s := by
  intro quad
  induction quad with
  | nil => intro s h; simp [computeQuadrant] at h
  | cons c rest ih =>
    intro s h
    simp only [computeQuadrant] at h
    cases hf : (colony.lookStructures (colony.getPos c)).find?
        (fun s2 => isSupplyStructure s2) with
    | none =>
      rw [hf] at h
      obtain ⟨c2, hc2, hfc2⟩ := ih s h
      exact ⟨c2, List.mem_cons_of_mem c hc2, hfc2⟩
    | some s0 =>
      rw [hf] at h
      rcases List.mem_cons.mp h with h | h
      · subst h
        exact ⟨c, List.mem_cons_self c rest, hf⟩
      · obtain ⟨c2, hc2, hfc2⟩ := ih s h
        exact ⟨c2, List.mem_cons_of_mem c hc2, hfc2⟩

theorem computeQuadrant_of_find (colony : Colony) :
    ∀ (quad : List Coord) (c : Coord) (s : GameStructure), c ∈ quad →
      (colony.lookStructures (colony.getPos c)).find?
        (fun s2 => isSupplyStructure s2) = some s →
      s ∈ computeQuadrant colony quad := by
  intro quad
  induction quad with
  | nil => intro c s h; simp at h
  | cons c0 rest ih =>
    intro c s hc hf
    simp only [computeQuadrant]
    rcases List.mem_cons.mp hc with hc | hc
    · subst hc
      rw [hf]
      exact List.mem_cons_self s _
    · cases hf0 : (colony.lookStructures (colony.getPos c0)).find?
          (fun s2 => isSupplyStructure s2) with
      | none => exact ih c s hc hf
      | some s0 => exact List.mem_cons_of_mem s0 (ih c s hc hf)

theorem computeQuadrant_count_unique (colony : Colony) (s : GameStructure) :
    ∀ (L : List (List Coord)),
      List.Pairwise (fun l1 l2 => ∀ c1 ∈ l1, ∀ c2 ∈ l2,
        colony.getPos c1 ≠ colony.getPos c2) L →
      (∀ l ∈ L, ∀ c ∈ l, ∀ s2 ∈ colony.lookStructures (colony.getPos c),
        s2.pos = colony.getPos c) →
      ∀ ql ∈ L, s ∈ computeQuadrant colony ql →
      L.countP (fun l => decide (s ∈ computeQuadrant colony l)) = 1 := by
  intro L
  induction L with
  | nil => intro _ _ ql h; simp at h
  | cons l0 rest ih =>
    intro hpw hlook ql hql hs
    rw [List.countP_cons]
    by_cases h0 : s ∈ computeQuadrant colony l0
    · have hz : rest.countP (fun l => decide (s ∈ computeQuadrant colony l)) = 0 := by
        rw [List.countP_eq_zero]
        intro l hl
        simp only [decide_eq_true_eq]
        intro hsl
        obtain ⟨c0, hc0, hf0⟩ := computeQuadrant_subset colony l0 s h0
        obtain ⟨c1, hc1, hf1⟩ := computeQuadrant_subset colony l s hsl
        have hp0 : s.pos = colony.getPos c0 :=
          hlook l0 (List.mem_cons_self _ _) c0 hc0 s (List.mem_of_find?_eq_some hf0)
        have hp1 : s.pos = colony.getPos c1 :=
          hlook l (List.mem_cons_of_mem _ hl) c1 hc1 s (List.mem_of_find?_eq_some hf1)
        have hne := (List.pairwise_cons.mp hpw).1 l hl c0 hc0 c1 hc1
        rw [← hp0, ← hp1] at hne
        exact hne rfl
      simp [h0, hz]
    · have hql2 : ql ∈ rest := by
        rcases List.mem_cons.mp hql with h | h
        · subst h; exact absurd hs h0
        · exact h
      have hrec := ih (List.pairwise_cons.mp hpw).2
        (fun l hl => hlook l (List.mem_cons_of_mem _ hl)) ql hql2 hs
      simp [h0, hrec]

theorem greedyFillSupply_append (cap : Nat) (avail : ResourceType → Nat) (req : Request) :
    ∀ (reqs : List Request) (carry : Store) (tasks : List Task),
      greedyFillSupply cap avail (reqs ++ [req]) carry tasks =
        (let cs := greedyFillSupply cap avail reqs carry tasks
         if cap - cs.1.total = 0 then cs
         else
           let amount := min (min req.amount (cap - cs.1.total)) (avail req.resourceType)
           if amount = 0 then cs
           else (cs.1.add req.resourceType amount,
                 cs.2 ++ [Task.transfer req.target req.resourceType amount])) := by
  intro reqs
  induction reqs with
  | nil => intro carry tasks; rfl
  | cons r rest ih =>
    intro carry tasks
    by_cases h1 : cap - Store.total carry = 0
    · simp [greedyFillSupply, h1]
    · by_cases h2 : min (min r.amount (cap - Store.total carry)) (avail r.resourceType) = 0
      · simp only [List.cons_append, greedyFillSupply, if_neg h1, if_pos h2]
        exact ih carry tasks
      · simp only [List.cons_append, greedyFillSupply, if_neg h1, if_neg h2]
        exact ih _ _

theorem greedyFillWithdraw_append (cap : Nat) (req : Request) :
    ∀ (reqs : List Request) (carry : Store) (tasks : List Task),
      greedyFillWithdraw cap (reqs ++ [req]) carry tasks =
        (let cs := greedyFillWithdraw cap reqs carry tasks
         if cap - cs.1.total = 0 then cs
         else
           let amount := min req.amount (cap - cs.1.total)
           if amount = 0 then cs
           else (cs.1.add req.resourceType amount,
                 cs.2 ++ [Task.withdraw req.target req.resourceType amount])) := by
  intro reqs
  induction reqs with
  | nil => intro carry tasks; rfl
  | cons r rest ih =>
    intro carry tasks
    by_cases h1 : cap - Store.total carry = 0
    · simp [greedyFillWithdraw, h1]
    · by_cases h2 : min r.amount (cap - Store.total carry) = 0
      · simp only [List.cons_append, greedyFillWithdraw, if_neg h1, if_pos h2]
        exact ih carry tasks
      · simp only [List.cons_append, greedyFillWithdraw, if_neg h1, if_neg h2]
        exact ih _ _

/-- Claim C2: at every point of the greedy fill (after any prefix of the
request list) and in the final simulated carries of both manifest
builders, the total simulated carried amount never exceeds the carry
capacity. -/
theorem claim2_capacity_respect (st : BunkerState) (queen : QueenInfo)
    (cap : Nat) (avail : ResourceType → Nat) (reqs : List Request)
    (carry : Store) (tasks : List Task) (h : carry.total ≤ cap) :
    (∀ k, ((greedyFillSupply cap avail (reqs.take k) carry tasks).1).total ≤ cap) ∧
    (∀ k, ((greedyFillWithdraw cap (reqs.take k) carry tasks).1).total ≤ cap) ∧
    (supplySimCarry st queen).total ≤ queen.carryCapacity ∧
    (withdrawSimCarry st queen).total ≤ queen.carryCapacity := by
  refine ⟨fun k => greedyFillSupply_carry_le cap avail _ carry tasks h,
          fun k => greedyFillWithdraw_carry_le cap _ carry tasks h, ?_, ?_⟩
  · exact greedyFillSupply_carry_le _ _ _ _ _ (by simp [Store.total])
  · exact greedyFillWithdraw_carry_le _ _ _ _ (by simp [Store.total])

/-- Witness for C2 on the concrete 80-energy request with capacity 50. -/
theorem claim2_capacity_respect_witness :
    ((greedyFillSupply 50 (fun _ => 100)
      (([⟨1, "energy", 80⟩] : List Request).take 1) [] []).1).total ≤ 50 ∧
    ((greedyFillWithdraw 50
      (([⟨1, "energy", 80⟩] : List Request).take 1) [] []).1).total ≤ 50 ∧
    (supplySimCarry witStX witQueen).total ≤ witQueen.carryCapacity := by
  have h := claim2_capacity_respect witStX witQueen 50 (fun _ => 100)
    [⟨1, "energy", 80⟩] [] [] (by decide)
  exact ⟨h.1 1, h.2.1 1, h.2.2.1⟩

/-- Claim C5: processing one more request at the end of the greedy fill
either does nothing (remaining capacity already exactly 0, or computed
amount 0: no operation appended, no carry update) or contributes exactly
`amount = min(request.amount, capacity - carried, availability[resource])`
against the fixed availability snapshot (supply path), respectively
`amount = min(request.amount, capacity - carried)` with no availability
bound (withdraw path). -/
theorem claim5_greedy_fill_amounts (cap : Nat) (avail : ResourceType → Nat)
    (reqs : List Request) (req : Request) (carry : Store) (tasks : List Task) :
    (greedyFillSupply cap avail (reqs ++ [req]) carry tasks =
      (let cs := greedyFillSupply cap avail reqs carry tasks
       if cap - cs.1.total = 0 then cs
       else
         let amount := min (min req.amount (cap - cs.1.total)) (avail req.resourceType)
         if amount = 0 then cs
         else (cs.1.add req.resourceType amount,
               cs.2 ++ [Task.transfer req.target req.resourceType amount]))) ∧
    (greedyFillWithdraw cap (reqs ++ [req]) carry tasks =
      (let cs := greedyFillWithdraw cap reqs carry tasks
       if cap - cs.1.total = 0 then cs
       else
         let amount := min req.amount (cap - cs.1.total)
         if amount = 0 then cs
         else (cs.1.add req.resourceType amount,
               cs.2 ++ [Task.withdraw req.target req.resourceType amount]))) :=
  ⟨greedyFillSupply_append cap avail req reqs carry tasks,
   greedyFillWithdraw_append cap req reqs carry tasks⟩

/-- Claim C3: a successfully built supply manifest is `[flush (0 or 1)] ++
[withdraw ops] ++ [delivery ops]`; a successfully built withdraw manifest
is `[flush (0 or 1)] ++ [withdraw ops] ++ [exactly one final flush]`, the
final flush being present even when the greedy fill produced nothing. -/
theorem claim3_chain_ordering (st : BunkerState) (queen : QueenInfo) :
    (∀ ts, buildSupplyTaskManifest st queen = .ok ts →
      ∃ fl w d, ts = fl ++ w ++ d ∧
        (fl = [] ∨ ∃ t, fl = [Task.transferAll t]) ∧
        (∀ op ∈ w, op.isWithdrawOp = true) ∧
        (∀ op ∈ d, op.isTransferOp = true)) ∧
    (∀ ts, buildWithdrawTaskManifest st queen = .ok ts →
      ∃ fl w t, ts = fl ++ w ++ [Task.transferAll t] ∧
        (fl = [] ∨ ∃ t2, fl = [Task.transferAll t2]) ∧
        (∀ op ∈ w, op.isWithdrawOp = true)) := by
  constructor
  · intro ts h
    simp only [buildSupplyTaskManifest] at h
    cases hf : supplyFlush st queen with
    | error e => simp [hf] at h
    | ok fp =>
      obtain ⟨ftasks, fpos⟩ := fp
      simp only [hf] at h
      cases hsel : selectWithdrawTarget st fpos (supplySimCarry st queen) with
      | none => simp [hsel] at h
      | some wt =>
        simp only [hsel, Except.ok.injEq] at h
        refine ⟨ftasks, _, supplySimTasks st queen, h.symm, ?_, ?_, ?_⟩
        · rcases supplyFlush_ok_shape st queen ftasks fpos hf with ⟨h1, _⟩ | ⟨t, _, h1, _⟩
          · exact Or.inl h1
          · exact Or.inr ⟨t.id, h1⟩
        · intro op hop
          obtain ⟨r, _, hop⟩ := List.mem_map.mp hop
          rw [← hop]
          rfl
        · exact greedyFillSupply_tasks_transfer _ _ _ _ _
            (fun op hop => absurd hop (List.not_mem_nil op))
  · intro ts h
    simp only [buildWithdrawTaskManifest] at h
    cases hf : withdrawFlush st queen with
    | error e => simp [hf] at h
    | ok ftasks =>
      simp only [hf] at h
      cases htt : transferTarget st with
      | none => simp [htt] at h
      | some t =>
        simp only [htt, Except.ok.injEq] at h
        refine ⟨ftasks, withdrawSimTasks st queen, t.id, h.symm, ?_, ?_⟩
        · rcases withdrawFlush_ok_shape st queen ftasks hf with h1 | ⟨t2, _, h1⟩
          · exact Or.inl h1
          · exact Or.inr ⟨t2.id, h1⟩
        · exact greedyFillWithdraw_tasks_withdraw _ _ _ _
            (fun op hop => absurd hop (List.not_mem_nil op))

/-- Witness for C3: the concrete supply manifest for `witStX` and the
concrete withdraw manifest for `witStW` decompose as claimed. -/
theorem claim3_chain_ordering_witness :
    (∃ fl w d,
      ([Task.withdraw 100 "energy" 50, Task.transfer 1 "energy" 50] : List Task) =
        fl ++ w ++ d ∧
      (fl = [] ∨ ∃ t, fl = [Task.transferAll t]) ∧
      (∀ op ∈ w, op.isWithdrawOp = true) ∧
      (∀ op ∈ d, op.isTransferOp = true)) ∧
    (∃ fl w t,
      ([Task.withdraw 1 "energy" 30, Task.transferAll 100] : List Task) =
        fl ++ w ++ [Task.transferAll t] ∧
      (fl = [] ∨ ∃ t2, fl = [Task.transferAll t2]) ∧
      (∀ op ∈ w, op.isWithdrawOp = true)) :=
  ⟨(claim3_chain_ordering witStX witQueen).1
      [Task.withdraw 100 "energy" 50, Task.transfer 1 "energy" 50] rfl,
   (claim3_chain_ordering witStW witQueen).2
      [Task.withdraw 1 "energy" 30, Task.transferAll 100] rfl⟩

/-- Claim C1: the selected withdraw source qualifies under the
all-or-nothing rule and minimizes the distance among qualifying store
structures; a unique qualifier is picked directly; if none qualifies the
supply build fails with the no-withdraw-target warning. -/
theorem claim1_source_selection (st : BunkerState) (queenPos : Position)
    (queenCarry : Store) (queen : QueenInfo) :
    (∀ wt, selectWithdrawTarget st queenPos queenCarry = some wt →
      wt ∈ storeStructures st ∧ qualifies queenCarry wt = true ∧
      ∀ s ∈ storeStructures st, qualifies queenCarry s = true →
        st.distance queenPos wt.pos ≤ st.distance queenPos s.pos) ∧
    (∀ wt, (storeStructures st).filter (fun s => qualifies queenCarry s) = [wt] →
      selectWithdrawTarget st queenPos queenCarry = some wt) ∧
    ((storeStructures st).filter
        (fun s => qualifies (supplySimCarry st queen) s) = [] →
      ∀ ftasks fpos, supplyFlush st queen = .ok (ftasks, fpos) →
      buildSupplyTaskManifest st queen = .error noWithdrawTargetMsg) := by
  refine ⟨?_, ?_, ?_⟩
  · intro wt h
    obtain ⟨hmem, hmin⟩ := selectWithdrawTarget_some st queenPos queenCarry wt h
    rw [List.mem_filter] at hmem
    refine ⟨hmem.1, hmem.2, ?_⟩
    intro s hs hq
    exact hmin s (List.mem_filter.mpr ⟨hs, hq⟩)
  · intro wt hf
    simp [selectWithdrawTarget, hf]
  · intro hfilter ftasks fpos hflush
    have hsel : selectWithdrawTarget st fpos (supplySimCarry st queen) = none := by
      simp [selectWithdrawTarget, hfilter]
    simp only [buildSupplyTaskManifest, hflush, hsel]

/-- Witness for C1: with two qualifying containers the nearer one is
picked; with fragmented stock no source qualifies and the build fails. -/
theorem claim1_source_selection_witness :
    (witBatNear ∈ storeStructures witStTwo ∧ qualifies witCarry witBatNear = true ∧
     witStTwo.distance ⟨0, 0⟩ witBatNear.pos ≤ witStTwo.distance ⟨0, 0⟩ witBatFar.pos) ∧
    buildSupplyTaskManifest witStFrag witQueen = .error noWithdrawTargetMsg := by
  constructor
  · have h := (claim1_source_selection witStTwo ⟨0, 0⟩ witCarry witQueen).1
      witBatNear (by decide)
    exact ⟨h.1, h.2.1, h.2.2 witBatFar (by decide) (by decide)⟩
  · exact (claim1_source_selection witStFrag ⟨0, 0⟩ [] witQueen).2.2
      (by decide) [] witQueen.pos rfl

theorem buildSupply_noTransfer_iff (st : BunkerState) (queen : QueenInfo) :
    buildSupplyTaskManifest st queen = .error noTransferTargetsMsg ↔
      queen.carry.total > 0 ∧ transferTarget st = none := by
  constructor
  · intro h
    cases hf : supplyFlush st queen with
    | error e =>
      simp only [buildSupplyTaskManifest, hf] at h
      injection h with h
      subst h
      simp only [supplyFlush] at hf
      split at hf
      · cases htt : transferTarget st with
        | none => rename_i hc; exact ⟨hc, rfl⟩
        | some t => rw [htt] at hf; simp at hf
      · simp at hf
    | ok fp =>
      obtain ⟨ftasks, fpos⟩ := fp
      simp only [buildSupplyTaskManifest, hf] at h
      cases hsel : selectWithdrawTarget st fpos (supplySimCarry st queen) with
      | none =>
        rw [hsel] at h
        injection h with h
        exact absurd h (by decide)
      | some wt => rw [hsel] at h; simp at h
  · intro hc
    have hf : supplyFlush st queen = .error noTransferTargetsMsg := by
      simp [supplyFlush, hc.1, hc.2]
    simp [buildSupplyTaskManifest, hf]

theorem buildWithdraw_noTransfer_iff (st : BunkerState) (queen : QueenInfo) :
    buildWithdrawTaskManifest st queen = .error noTransferTargetsMsg ↔
      transferTarget st = none := by
  constructor
  · intro h
    cases htt : transferTarget st with
    | none => rfl
    | some t =>
      cases hf : withdrawFlush st queen with
      | error e =>
        simp only [withdrawFlush] at hf
        split at hf
        · rw [htt] at hf; simp at hf
        · simp at hf
      | ok ftasks =>
        simp [buildWithdrawTaskManifest, hf, htt] at h
  · intro htt
    have hf : withdrawFlush st queen = .ok [] ∨
        withdrawFlush st queen = .error noTransferTargetsMsg := by
      simp only [withdrawFlush, htt]
      split
      · exact Or.inr rfl
      · exact Or.inl rfl
    rcases hf with hf | hf <;> simp [buildWithdrawTaskManifest, hf, htt]

/-- Claim C6: the fallback store is the terminal, else the storage, else
the first reserve container; the supply build aborts with the no-transfer
warning exactly when the queen carries something and no fallback exists;
the withdraw build aborts with that warning whenever no fallback exists;
in these abort cases the dispatcher sends the queen to idle movement. -/
theorem claim6_flush_fallback (st : BunkerState) (queen : QueenInfo) :
    (∀ t, st.terminal = some t → transferTarget st = some t) ∧
    (st.terminal = none → ∀ s, st.storage = some s → transferTarget st = some s) ∧
    (st.terminal = none → st.storage = none → transferTarget st = st.batteries.head?) ∧
    (buildSupplyTaskManifest st queen = .error noTransferTargetsMsg ↔
      queen.carry.total > 0 ∧ transferTarget st = none) ∧
    (buildWithdrawTaskManifest st queen = .error noTransferTargetsMsg ↔
      transferTarget st = none) ∧
    (queen.isIdle = true → transferTarget st = none →
      hasWithdrawRequest st queen = true →
      dispatchQueen st queen = .idleMove (getChargingSpot st queen)) ∧
    (queen.isIdle = true → transferTarget st = none → queen.carry.total > 0 →
      hasWithdrawRequest st queen = false → hasSupplyRequest st queen = true →
      dispatchQueen st queen = .idleMove (getChargingSpot st queen)) := by
  refine ⟨?_, ?_, ?_, buildSupply_noTransfer_iff st queen,
    buildWithdraw_noTransfer_iff st queen, ?_, ?_⟩
  · intro t ht; simp [transferTarget, ht]
  · intro ht s hs; simp [transferTarget, ht, hs]
  · intro ht hs; simp [transferTarget, ht, hs]
  · intro hidle htt hw
    have hb := (buildWithdraw_noTransfer_iff st queen).mpr htt
    simp [dispatchQueen, hidle, handleQueen, hw, hb]
  · intro hidle htt hc hw hsup
    have hb := (buildSupply_noTransfer_iff st queen).mpr ⟨hc, htt⟩
    simp [dispatchQueen, hidle, handleQueen, hw, hsup, hb]

/-- Witness for C6 on a store-less state: both builds abort with the
no-transfer warning; the priority rule picks `witStX`'s storage. -/
theorem claim6_flush_fallback_witness :
    buildSupplyTaskManifest witStEmpty witQueenCarrying = .error noTransferTargetsMsg ∧
    buildWithdrawTaskManifest witStEmpty witQueen = .error noTransferTargetsMsg ∧
    transferTarget witStX = some ⟨100, ⟨5, 5⟩, [("energy", 200)]⟩ := by
  refine ⟨?_, ?_, ?_⟩
  · exact ((claim6_flush_fallback witStEmpty witQueenCarrying).2.2.2.1).mpr
      ⟨by decide, rfl⟩
  · exact ((claim6_flush_fallback witStEmpty witQueen).2.2.2.2.1).mpr rfl
  · exact (claim6_flush_fallback witStX witQueen).2.1 rfl
      ⟨100, ⟨5, 5⟩, [("energy", 200)]⟩ rfl

/-- Claim C7: the dispatcher iterates the queens in name-sorted order,
leaves busy queens on their current task, gives an idle queen the
withdraw manifest when any assigned structure has a pending removal
request (priority over supply), else the supply manifest when any has a
pending delivery request, and falls back to idle actions when there are
no requests or the build returned no manifest. -/
theorem claim7_dispatcher (st : BunkerState) (queens : List QueenInfo)
    (queen : QueenInfo) :
    (runAll st queens).map Prod.fst = (sortByName queens).map QueenInfo.name ∧
    List.Sorted (fun a b => a.name ≤ b.name) (sortByName queens) ∧
    List.Perm (sortByName queens) queens ∧
    (queen.isIdle = false → dispatchQueen st queen = .keepCurrent) ∧
    (queen.isIdle = true → hasWithdrawRequest st queen = true →
      (∀ ts, buildWithdrawTaskManifest st queen = .ok ts →
        dispatchQueen st queen = .newManifest ts) ∧
      (∀ e, buildWithdrawTaskManifest st queen = .error e →
        dispatchQueen st queen = .idleMove (getChargingSpot st queen))) ∧
    (queen.isIdle = true → hasWithdrawRequest st queen = false →
      hasSupplyRequest st queen = true →
      (∀ ts, buildSupplyTaskManifest st queen = .ok ts →
        dispatchQueen st queen = .newManifest ts) ∧
      (∀ e, buildSupplyTaskManifest st queen = .error e →
        dispatchQueen st queen = .idleMove (getChargingSpot st queen))) ∧
    (queen.isIdle = true → hasWithdrawRequest st queen = false →
      hasSupplyRequest st queen = false →
      dispatchQueen st queen = .idleMove (getChargingSpot st queen)) := by
  refine ⟨?_, List.sorted_insertionSort _ _, sortByName_perm queens, ?_, ?_, ?_, ?_⟩
  · simp [runAll, List.map_map, Function.comp_def]
  · intro h; simp [dispatchQueen, h]
  · intro hidle hw
    constructor
    · intro ts hb; simp [dispatchQueen, hidle, handleQueen, hw, hb]
    · intro e hb; simp [dispatchQueen, hidle, handleQueen, hw, hb]
  · intro hidle hw hsup
    constructor
    · intro ts hb; simp [dispatchQueen, hidle, handleQueen, hw, hsup, hb]
    · intro e hb; simp [dispatchQueen, hidle, handleQueen, hw, hsup, hb]
  · intro hidle hw hsup
    simp [dispatchQueen, hidle, handleQueen, hw, hsup]

/-- Witness for C7: the two sample queens are processed in name order, and
the idle queen with a pending removal request gets the withdraw manifest. -/
theorem claim7_dispatcher_witness :
    (runAll witStW witQueens).map Prod.fst = ["a", "b"] ∧
    dispatchQueen witStW witQueen =
      .newManifest [Task.withdraw 1 "energy" 30, Task.transferAll 100] := by
  constructor
  · rw [(claim7_dispatcher witStW witQueens witQueen).1]
    simp [sortByName, witQueens, List.insertionSort, List.orderedInsert]
    decide
  · exact ((claim7_dispatcher witStW witQueens witQueen).2.2.2.2.1 rfl rfl).1 _ rfl

/-- Claim C8: the idle handler only issues a movement directive: toward
the charging spot nearest to the first assigned structure (else the
queen), a member of the charging-spot list whenever one exists, and the
queen's own position as a non-aborting fallback when none resolves. -/
theorem claim8_idle_handler (st : BunkerState) (queen : QueenInfo) :
    (st.chargeSpots = [] → getChargingSpot st queen = queen.pos) ∧
    (∀ p, findClosestByRange (chargeAnchor st queen) st.chargeSpots = some p →
      getChargingSpot st queen = p ∧ p ∈ st.chargeSpots ∧
      ∀ s ∈ st.chargeSpots, chebyshev (chargeAnchor st queen) p ≤
        chebyshev (chargeAnchor st queen) s) ∧
    (st.chargeSpots ≠ [] → getChargingSpot st queen ∈ st.chargeSpots) ∧
    (queen.isIdle = true → hasWithdrawRequest st queen = false →
      hasSupplyRequest st queen = false →
      dispatchQueen st queen = .idleMove (getChargingSpot st queen)) := by
  refine ⟨?_, ?_, ?_, ?_⟩
  · intro h; simp [getChargingSpot, findClosestByRange, h, minBy]
  · intro p hp
    refine ⟨by simp [getChargingSpot, hp], minBy_mem _ _ _ hp, minBy_min _ _ _ hp⟩
  · intro h
    cases hp : findClosestByRange (chargeAnchor st queen) st.chargeSpots with
    | none => exact absurd ((minBy_eq_none _ _).mp hp) h
    | some p =>
      have hg : getChargingSpot st queen = p := by simp [getChargingSpot, hp]
      rw [hg]
      exact minBy_mem _ _ _ hp
  · intro hidle hw hsup
    simp [dispatchQueen, hidle, handleQueen, hw, hsup]

/-- Witness for C8: the sample queen is routed to the only charging spot,
and with no spots at all it stays at its own position. -/
theorem claim8_idle_handler_witness :
    getChargingSpot witStQuiet witQueen = ⟨3, 3⟩ ∧
    dispatchQueen witStQuiet witQueen = .idleMove (getChargingSpot witStQuiet witQueen) ∧
    getChargingSpot witStNoSpots witQueen = witQueen.pos := by
  refine ⟨?_, ?_, ?_⟩
  · exact ((claim8_idle_handler witStQuiet witQueen).2.1 ⟨3, 3⟩ rfl).1
  · exact (claim8_idle_handler witStQuiet witQueen).2.2.2 rfl rfl rfl
  · exact (claim8_idle_handler witStNoSpots witQueen).1 rfl

theorem selectWithdrawTarget_none (st : BunkerState) (queenPos : Position)
    (queenCarry : Store)
    (h : selectWithdrawTarget st queenPos queenCarry = none) :
    (storeStructures st).filter (fun s => qualifies queenCarry s) = [] := by
  simp only [selectWithdrawTarget] at h
  split at h
  · rename_i hlen
    have := (minBy_eq_none _ _).mp h
    rw [this] at hlen
    simp at hlen
  · exact List.head?_eq_none_iff.mp h

/-- Claim C10: when the greedy fill leaves the simulated carry empty,
every store structure passes the all-or-nothing check vacuously, so the
supply build succeeds (with a manifest containing no withdraw and no
delivery operations) whenever at least one store structure exists, and it
aborts with the no-withdraw-target warning exactly in the no-store case. -/
theorem claim10_empty_carry_supply (st : BunkerState) (queen : QueenInfo)
    (h : supplySimCarry st queen = []) :
    (∀ s ∈ storeStructures st, qualifies (supplySimCarry st queen) s = true) ∧
    (storeStructures st = [] ↔ transferTarget st = none) ∧
    (storeStructures st = [] → queen.carry.total = 0 →
      buildSupplyTaskManifest st queen = .error noWithdrawTargetMsg) ∧
    (storeStructures st ≠ [] →
      ∃ ts, buildSupplyTaskManifest st queen = .ok ts ∧
        ∀ op ∈ ts, op.isTransferAllOp = true) := by
  have hiff : storeStructures st = [] ↔ transferTarget st = none := by
    cases ht : st.terminal <;> cases hs : st.storage <;> cases hb : st.batteries <;>
      simp [storeStructures, transferTarget, ht, hs, hb]
  refine ⟨?_, hiff, ?_, ?_⟩
  · intro s _
    rw [h]
    rfl
  · intro hempty hc
    have hflush : supplyFlush st queen = .ok ([], queen.pos) := by
      simp [supplyFlush, hc]
    have hsel : selectWithdrawTarget st queen.pos (supplySimCarry st queen) = none := by
      simp [selectWithdrawTarget, hempty]
    simp only [buildSupplyTaskManifest, hflush, hsel]
  · intro hne
    cases htt : transferTarget st with
    | none => exact absurd (hiff.mpr htt) hne
    | some t =>
      have hflush : ∃ ftasks fpos, supplyFlush st queen = .ok (ftasks, fpos) ∧
          (ftasks = [] ∨ ftasks = [Task.transferAll t.id]) := by
        simp only [supplyFlush, htt]
        split
        · exact ⟨[Task.transferAll t.id], t.pos, rfl, Or.inr rfl⟩
        · exact ⟨[], queen.pos, rfl, Or.inl rfl⟩
      obtain ⟨ftasks, fpos, hflush, hshape⟩ := hflush
      cases hsel : selectWithdrawTarget st fpos (supplySimCarry st queen) with
      | none =>
        have hfilter := selectWithdrawTarget_none st fpos _ hsel
        rw [List.filter_eq_nil_iff] at hfilter
        rcases List.exists_mem_of_ne_nil _ hne with ⟨s, hsmem⟩
        have hq : qualifies (supplySimCarry st queen) s = true := by rw [h]; rfl
        exact absurd hq (by simpa using hfilter s hsmem)
      | some wt =>
        have hsnd : supplySimTasks st queen = [] :=
          greedyFillSupply_snd_of_carry_nil _ _ _ _ _ h
        refine ⟨ftasks, ?_, ?_⟩
        · simp only [buildSupplyTaskManifest, hflush]
          simp only [hsel]
          simp [h, hsnd]
        · intro op hop
          rcases hshape with hf | hf <;> rw [hf] at hop
          · simp at hop
          · simp at hop
            rw [hop]
            rfl

/-- Witness for C10: with a storage and no actionable request the build
returns an operation-free manifest; with no stores it aborts with the
no-withdraw-target warning. -/
theorem claim10_empty_carry_supply_witness :
    (∃ ts, buildSupplyTaskManifest witStQuiet witQueen = .ok ts ∧
      ∀ op ∈ ts, op.isTransferAllOp = true) ∧
    buildSupplyTaskManifest witStEmpty witQueen = .error noWithdrawTargetMsg :=
  ⟨(claim10_empty_carry_supply witStQuiet witQueen rfl).2.2.2 (by decide),
   (claim10_empty_carry_supply witStEmpty witQueen rfl).2.2.1 rfl rfl⟩

theorem buildAssignments_lookup_of_not_active (queens : List QueenInfo)
    (q : Quadrants) (w : String)
    (hmem : w ∈ (sortByName queens).map QueenInfo.name)
    (hnot : w ∉ activeNamesOf queens) :
    (buildAssignments queens q).lookup w = some [] := by
  by_cases hn : (activeNamesOf queens).length ≥ 1
  · have hgen : ∀ i : Nat,
        ¬ w = (activeNamesOf queens).getD (i % (activeNamesOf queens).length) "" := by
      intro i h
      exact hnot (h ▸ getD_mem_of_lt _ _ (Nat.mod_lt _ (by omega)))
    simp only [buildAssignments, if_pos hn, quadrantAssignmentOrder, assignLoop]
    rw [lookup_assocConcat, lookup_assocConcat, lookup_assocConcat, lookup_assocConcat,
        if_neg (hgen (0 + 1 + 1 + 1)), if_neg (hgen (0 + 1 + 1)), if_neg (hgen (0 + 1)),
        if_neg (hgen 0), lookup_initAssignments, if_pos hmem]
  · simp only [buildAssignments, if_neg hn]
    rw [lookup_initAssignments, if_pos hmem]

theorem buildAssignments_lookup_active (queens : List QueenInfo) (q : Quadrants)
    (w : String) (hw : w ∈ activeNamesOf queens) :
    (buildAssignments queens q).lookup w = some (
      (if w = (activeNamesOf queens).getD (0 % (activeNamesOf queens).length) ""
        then q.lowerRight else []) ++
      ((if w = (activeNamesOf queens).getD (1 % (activeNamesOf queens).length) ""
        then q.upperLeft else []) ++
      ((if w = (activeNamesOf queens).getD (2 % (activeNamesOf queens).length) ""
        then q.lowerLeft else []) ++
      (if w = (activeNamesOf queens).getD (3 % (activeNamesOf queens).length) ""
        then q.upperRight else [])))) := by
  have hn : (activeNamesOf queens).length ≥ 1 :=
    List.length_pos.mpr (List.ne_nil_of_mem hw)
  have hmem := mem_activeNamesOf queens w hw
  simp only [buildAssignments, if_pos hn, quadrantAssignmentOrder, assignLoop]
  simp only [Nat.reduceAdd]
  rw [lookup_assocConcat, lookup_assocConcat, lookup_assocConcat, lookup_assocConcat,
      lookup_initAssignments, if_pos hmem]
  split_ifs <;> simp

/-- Claim C4: zone assignment deals the four zones in the fixed order
`[lowerRight, upperLeft, lowerLeft, upperRight]`, zone `i` going to the
active queen at index `i mod activeCount` of the name-sorted active list;
with no active queen every queen gets the empty assignment, a spawning
queen always gets the empty assignment, and with exactly two active
queens the first gets lowerRight ++ lowerLeft and the second
upperLeft ++ upperRight. -/
theorem claim4_zone_assignment (queens : List QueenInfo) (q : Quadrants) :
    (activeNamesOf queens = [] →
      ∀ qu ∈ queens, (buildAssignments queens q).lookup qu.name = some []) ∧
    ((queens.map QueenInfo.name).Nodup →
      ∀ qu ∈ queens, qu.spawning = true →
      (buildAssignments queens q).lookup qu.name = some []) ∧
    (∀ w ∈ activeNamesOf queens,
      (buildAssignments queens q).lookup w = some (
        (if w = (activeNamesOf queens).getD (0 % (activeNamesOf queens).length) ""
          then q.lowerRight else []) ++
        ((if w = (activeNamesOf queens).getD (1 % (activeNamesOf queens).length) ""
          then q.upperLeft else []) ++
        ((if w = (activeNamesOf queens).getD (2 % (activeNamesOf queens).length) ""
          then q.lowerLeft else []) ++
        (if w = (activeNamesOf queens).getD (3 % (activeNamesOf queens).length) ""
          then q.upperRight else []))))) ∧
    (∀ a b, (queens.map QueenInfo.name).Nodup → activeNamesOf queens = [a, b] →
      (buildAssignments queens q).lookup a = some (q.lowerRight ++ q.lowerLeft) ∧
      (buildAssignments queens q).lookup b = some (q.upperLeft ++ q.upperRight)) := by
  refine ⟨?_, ?_, fun w hw => buildAssignments_lookup_active queens q w hw, ?_⟩
  · intro hA qu hqu
    refine buildAssignments_lookup_of_not_active queens q qu.name ?_ (by rw [hA]; simp)
    exact (mem_names_sortByName queens qu.name).mpr (List.mem_map_of_mem _ hqu)
  · intro hnd qu hqu hsp
    refine buildAssignments_lookup_of_not_active queens q qu.name ?_
      (spawning_not_active queens qu hnd hqu hsp)
    exact (mem_names_sortByName queens qu.name).mpr (List.mem_map_of_mem _ hqu)
  · intro a b hnd hA
    have hnodup : (activeNamesOf queens).Nodup := activeNamesOf_nodup queens hnd
    rw [hA] at hnodup
    have hab : a ≠ b := by
      rcases List.nodup_cons.mp hnodup with ⟨hna, _⟩
      intro h
      exact hna (h ▸ List.mem_cons_self b [])
    constructor
    · have h := buildAssignments_lookup_active queens q a (by rw [hA]; simp)
      rw [hA] at h
      simpa [hab] using h
    · have h := buildAssignments_lookup_active queens q b (by rw [hA]; simp)
      rw [hA] at h
      simpa [Ne.symm hab] using h

/-- Witness for C4: the two active sample queens (given out of order) get
lowerRight ++ lowerLeft and upperLeft ++ upperRight respectively. -/
theorem claim4_zone_assignment_witness :
    (buildAssignments witQueens witQuadrants).lookup "a" =
      some (witQuadrants.lowerRight ++ witQuadrants.lowerLeft) ∧
    (buildAssignments witQueens witQuadrants).lookup "b" =
      some (witQuadrants.upperLeft ++ witQuadrants.upperRight) :=
  (claim4_zone_assignment witQueens witQuadrants).2.2.2 "a" "b"
    (by decide)
    (by simp [activeNamesOf, sortByName, witQueens, List.insertionSort,
          List.orderedInsert]
        decide)

/-- Claim C9: every structure placed in a quadrant has one of the four
supply roles; a coordinate with no qualifying structure contributes
nothing; and under position-consistent lookups with pairwise-disjoint
quadrant positions, a structure appearing in some zone appears in exactly
one of the four zones. -/
theorem claim9_zone_partition (col : Colony) (qc : QuadrantCoords) :
    (∀ quad s, s ∈ computeQuadrant col quad → isSupplyStructure s = true) ∧
    (∀ c rest, (col.lookStructures (col.getPos c)).find?
        (fun s2 => isSupplyStructure s2) = none →
      computeQuadrant col (c :: rest) = computeQuadrant col rest) ∧
    (List.Pairwise (fun l1 l2 => ∀ c1 ∈ l1, ∀ c2 ∈ l2,
        col.getPos c1 ≠ col.getPos c2) (quadrantCoordList qc) →
      (∀ l ∈ quadrantCoordList qc, ∀ c ∈ l,
        ∀ s2 ∈ col.lookStructures (col.getPos c), s2.pos = col.getPos c) →
      ∀ s ql, ql ∈ quadrantCoordList qc → s ∈ computeQuadrant col ql →
        (quadrantCoordList qc).countP
          (fun l => decide (s ∈ computeQuadrant col l)) = 1) := by
  refine ⟨?_, ?_, ?_⟩
  · intro quad s hs
    obtain ⟨c, _, hf⟩ := computeQuadrant_subset col quad s hs
    exact List.find?_some hf
  · intro c rest hf
    simp [computeQuadrant, hf]
  · intro hpw hlook s ql hql hs
    exact computeQuadrant_count_unique col s (quadrantCoordList qc) hpw hlook ql hql hs

/-- Witness for C9: the sample spawn structure lies in exactly one of the
four sample quadrants, and it carries a supply role. -/
theorem claim9_zone_partition_witness :
    (quadrantCoordList witQC).countP
      (fun l => decide ((⟨1, "spawn", ⟨1, 1⟩⟩ : GameStructure) ∈
        computeQuadrant witColony l)) = 1 ∧
    isSupplyStructure ⟨1, "spawn", ⟨1, 1⟩⟩ = true := by
  constructor
  · exact (claim9_zone_partition witColony witQC).2.2 (by decide) (by decide)
      ⟨1, "spawn", ⟨1, 1⟩⟩ witQC.lowerRight (by decide) (by decide)
  · exact (claim9_zone_partition witColony witQC).1 witQC.lowerRight _ (by decide)

end QueenBunker
